import Mathlib

/-!
Verification of the LLM response-reconciler pipeline of
`backend/app/services/llm.py`: the delimiter-stripping, JSON-repair,
schema-tolerant decoding and field-materialization stages that turn a raw
model response into a `DocumentResult` record.

Strings are modelled as `List Char`; Python's `json.loads` is modelled by an
executable recursive-descent decoder over the standard JSON grammar (the
library decoder additionally accepts the `Infinity`/`NaN` extensions, which
none of the repaired inputs considered here exercise).  Code that can raise
a Python exception is modelled in the `Except String` monad.
-/

/-- A decoded JSON value, as produced by `json.loads`.  A number is kept as
the exact fraction `n / d` its literal denotes (`d` positive by
construction, not normalized); objects keep Python's dict semantics
(insertion order, duplicate keys collapsed with the last value winning). -/
inductive Json where
  | null : Json
  | bool (b : Bool) : Json
  | num (n : Int) (d : Nat) : Json
  | str (s : String) : Json
  | arr (xs : List Json) : Json
  | obj (kvs : List (String × Json)) : Json

/-- The whitespace set of Python's `str.strip()` (ASCII part). -/
def isPySpace (c : Char) : Bool :=
  c = ' ' || c = '\t' || c = '\n' || c = '\r' || c = '\x0b' || c = '\x0c'

/-- Python `str.strip()`: remove leading and trailing whitespace. -/
def pystrip (l : List Char) : List Char :=
  List.rdropWhile isPySpace (l.dropWhile isPySpace)

/-- ASCII lowercasing of one character, the fragment of Python `str.lower()`
relevant to the risk-level vocabulary and the code-fence language tag. -/
def asciiLower (c : Char) : Char :=
  if 'A' ≤ c ∧ c ≤ 'Z' then Char.ofNat (c.toNat + 32) else c

def asciiLowerL (l : List Char) : List Char := l.map asciiLower

def lowerStr (s : String) : String := String.mk (asciiLowerL s.data)

/-- Python truthiness of a decoded JSON value (`None`, `False`, `0`, `""`,
`[]`, `{}` are falsy). -/
def truthy : Json → Bool
  | .null => false
  | .bool b => b
  | .num n _ => if n = 0 then false else true
  | .str s => if s = "" then false else true
  | .arr xs => !xs.isEmpty
  | .obj kvs => !kvs.isEmpty

/-- Python `a or b` on decoded values. -/
def pyOr (a b : Json) : Json := if truthy a then a else b

/-- Insertion into a Python dict: an existing key keeps its position and is
overwritten, a new key is appended. -/
def insertKV (kvs : List (String × Json)) (k : String) (v : Json) :
    List (String × Json) :=
  match kvs with
  | [] => [(k, v)]
  | (k0, v0) :: t => if k0 = k then (k0, v) :: t else (k0, v0) :: insertKV t k v

/-- `dict.get(k, d)` on the key-value list of a decoded object. -/
def dictGetD (kvs : List (String × Json)) (k : String) (d : Json) : Json :=
  match kvs.find? (fun p => p.1 = k) with
  | some p => p.2
  | none => d

/-- `x.get(k, d)` on an arbitrary decoded value: any non-dict receiver
raises `AttributeError`. -/
def pyGet (j : Json) (k : String) (d : Json) : Except String Json :=
  match j with
  | .obj kvs => .ok (dictGetD kvs k d)
  | _ => .error "AttributeError"

/-- `x.items()` on an arbitrary decoded value. -/
def pyItems (j : Json) : Except String (List (String × Json)) :=
  match j with
  | .obj kvs => .ok kvs
  | _ => .error "AttributeError"

/-- Iteration `for c in x` over an arbitrary decoded value: lists yield their
elements, strings their characters, dicts their keys; everything else raises
`TypeError`. -/
def pyIter (j : Json) : Except String (List Json) :=
  match j with
  | .arr xs => .ok xs
  | .str s => .ok (s.data.map (fun c => Json.str (String.mk [c])))
  | .obj kvs => .ok (kvs.map (fun p => Json.str p.1))
  | _ => .error "TypeError"

/-- `x.lower()` on an arbitrary decoded value. -/
def pyLower (j : Json) : Except String String :=
  match j with
  | .str s => .ok (lowerStr s)
  | _ => .error "AttributeError"

/-! ### The JSON decoder (model of `json.loads`) -/

/-- Whitespace skipped by the JSON grammar. -/
def isJsonWs (c : Char) : Bool := c = ' ' || c = '\t' || c = '\n' || c = '\r'

def skipWs (cs : List Char) : List Char := cs.dropWhile isJsonWs

def digitsToNat (ds : List Char) : Nat :=
  ds.foldl (fun a c => a * 10 + (c.toNat - 48)) 0

def hexDigitVal (c : Char) : Option Nat :=
  if '0' ≤ c ∧ c ≤ '9' then some (c.toNat - 48)
  else if 'a' ≤ c ∧ c ≤ 'f' then some (c.toNat - 87)
  else if 'A' ≤ c ∧ c ≤ 'F' then some (c.toNat - 55)
  else none

/-- Body of a JSON string literal after the opening quote; returns the decoded
characters together with the input following the closing quote. -/
def parseJString : Nat → List Char → Option (List Char × List Char)
  | 0, _ => none
  | _ + 1, [] => none
  | n + 1, c :: rest =>
    if c = '"' then some ([], rest)
    else if c = '\\' then
      match rest with
      | [] => none
      | e :: rest1 =>
        let dec : Option (Char × List Char) :=
          if e = '"' then some ( '"', rest1)
          else if e = '\\' then some ( '\\', rest1)
          else if e = '/' then some ( '/', rest1)
          else if e = 'b' then some ( '\x08', rest1)
          else if e = 'f' then some ( '\x0c', rest1)
          else if e = 'n' then some ( '\n', rest1)
          else if e = 'r' then some ( '\r', rest1)
          else if e = 't' then some ( '\t', rest1)
          else if e = 'u' then
            match rest1 with
            | a :: b :: c2 :: d :: rest2 =>
              match hexDigitVal a, hexDigitVal b, hexDigitVal c2, hexDigitVal d with
              | some ha, some hb, some hc, some hd =>
                some (Char.ofNat (((ha * 16 + hb) * 16 + hc) * 16 + hd), rest2)
              | _, _, _, _ => none
            | _ => none
          else none
        match dec with
        | none => none
        | some (ch, rest2) =>
          match parseJString n rest2 with
          | none => none
          | some (s, r) => some (ch :: s, r)
    else if c.toNat < 0x20 then none
    else
      match parseJString n rest with
      | none => none
      | some (s, r) => some (c :: s, r)

/-- The fraction `sgn * (i + f / 10^k) * 10^e` as an unnormalized
numerator/denominator pair of integers. -/
def mkFraction (neg : Bool) (i f : Nat) (k : Nat) (e : Int) : Int × Nat :=
  let n0 : Int := (i * 10 ^ k + f : Nat)
  let n1 : Int := if neg then -n0 else n0
  if 0 ≤ e then (n1 * (10 ^ e.toNat : Nat), 10 ^ k)
  else (n1, 10 ^ k * 10 ^ (-e).toNat)

/-- A JSON number literal, mirroring the grammar `-?(0|[1-9]\d*)(\.\d+)?([eE][+-]?\d+)?`;
returns the value and the unconsumed input. -/
def parseJNumber (cs : List Char) : Option ((Int × Nat) × List Char) :=
  let sgn : Bool × List Char :=
    match cs with
    | '-' :: r => (true, r)
    | _ => (false, cs)
  let ids := sgn.2.takeWhile Char.isDigit
  let cs2 := sgn.2.dropWhile Char.isDigit
  if ids = [] then none
  else if 1 < ids.length ∧ ids.head? = some '0' then none
  else
    let frac : List Char × List Char :=
      match cs2 with
      | '.' :: r =>
        let ds := r.takeWhile Char.isDigit
        if ds = [] then ([], cs2) else (ds, r.dropWhile Char.isDigit)
      | _ => ([], cs2)
    let expo : Int × List Char :=
      match frac.2 with
      | e :: r =>
        if e = 'e' ∨ e = 'E' then
          let es : Int × List Char :=
            match r with
            | '+' :: r2 => (1, r2)
            | '-' :: r2 => (-1, r2)
            | _ => (1, r)
          let eds := es.2.takeWhile Char.isDigit
          if eds = [] then (0, frac.2)
          else (es.1 * (digitsToNat eds : Int), es.2.dropWhile Char.isDigit)
        else (0, frac.2)
      | [] => (0, frac.2)
    some (mkFraction sgn.1 (digitsToNat ids) (digitsToNat frac.1) frac.1.length expo.1,
          expo.2)

mutual

/-- One JSON value (with leading whitespace), returning the unconsumed input. -/
def parseVal : Nat → List Char → Option (Json × List Char)
  | 0, _ => none
  | n + 1, cs0 =>
    match skipWs cs0 with
    | [] => none
    | '"' :: rest =>
      match parseJString (rest.length + 1) rest with
      | none => none
      | some (s, r) => some (Json.str (String.mk s), r)
    | '{' :: rest =>
      match skipWs rest with
      | '}' :: r2 => some (Json.obj [], r2)
      | r1 => parseMembers n r1 []
    | '[' :: rest =>
      match skipWs rest with
      | ']' :: r2 => some (Json.arr [], r2)
      | r1 => parseItems n r1 []
    | cs =>
      if cs.take 4 = ['t', 'r', 'u', 'e'] then some (Json.bool true, cs.drop 4)
      else if cs.take 5 = ['f', 'a', 'l', 's', 'e'] then some (Json.bool false, cs.drop 5)
      else if cs.take 4 = ['n', 'u', 'l', 'l'] then some (Json.null, cs.drop 4)
      else
        match parseJNumber cs with
        | none => none
        | some (q, r) => some (Json.num q.1 q.2, r)

/-- Members of an object after the opening brace (first key expected at the
head of the input). -/
def parseMembers : Nat → List Char → List (String × Json) →
    Option (Json × List Char)
  | 0, _, _ => none
  | n + 1, cs, acc =>
    match cs with
    | '"' :: rest =>
      match parseJString (rest.length + 1) rest with
      | none => none
      | some (k, r1) =>
        match skipWs r1 with
        | ':' :: r2 =>
          match parseVal n r2 with
          | none => none
          | some (v, r3) =>
            let acc2 := insertKV acc (String.mk k) v
            match skipWs r3 with
            | ',' :: r4 => parseMembers n (skipWs r4) acc2
            | '}' :: r4 => some (Json.obj acc2, r4)
            | _ => none
        | _ => none
    | _ => none

/-- Elements of an array after the opening bracket. -/
def parseItems : Nat → List Char → List Json → Option (Json × List Char)
  | 0, _, _ => none
  | n + 1, cs, acc =>
    match parseVal n cs with
    | none => none
    | some (v, r1) =>
      match skipWs r1 with
      | ',' :: r2 => parseItems n r2 (acc ++ [v])
      | ']' :: r2 => some (Json.arr (acc ++ [v]), r2)
      | _ => none

end

/-- Model of `json.loads`: decode one JSON value and require only trailing
whitespace after it. -/
def json_loads (cs : List Char) : Option Json :=
  match parseVal (2 * cs.length + 4) cs with
  | some (v, rest) => if skipWs rest = [] then some v else none
  | none => none

/-- Whether `json.loads` succeeds, i.e. the `try: json.loads(s) ... except`
test used throughout `_repair_json`. -/
def jsonParses (cs : List Char) : Bool := (json_loads cs).isSome

/-! ### Numeric coercion (model of `_to_int`) -/

/-- Unsigned decimal part of a Python float literal: `digits[.digits]` or
`.digits`; returns integer digits, fraction digits and fraction length
together with the unconsumed input. -/
def parseUDec (cs : List Char) : Option ((Nat × Nat × Nat) × List Char) :=
  let ds := cs.takeWhile Char.isDigit
  let cs1 := cs.dropWhile Char.isDigit
  match cs1 with
  | '.' :: r =>
    let fs := r.takeWhile Char.isDigit
    let r1 := r.dropWhile Char.isDigit
    if ds = [] ∧ fs = [] then none
    else some ((digitsToNat ds, digitsToNat fs, fs.length), r1)
  | _ =>
    if ds = [] then none else some ((digitsToNat ds, 0, 0), cs1)

/-- Python `float(s)` on a string: surrounding whitespace is stripped and the
whole remainder must be a signed decimal literal with an optional exponent.
The `inf`/`nan` word forms are folded into failure here, since `int()` of
those raises as well and `_to_int` observes only the combined outcome. -/
def pyParseFloat (s : String) : Option (Int × Nat) :=
  let cs := pystrip s.data
  let sgn : Bool × List Char :=
    match cs with
    | '+' :: r => (false, r)
    | '-' :: r => (true, r)
    | _ => (false, cs)
  match parseUDec sgn.2 with
  | none => none
  | some (m, rest) =>
    match rest with
    | [] => some (mkFraction sgn.1 m.1 m.2.1 m.2.2 0)
    | e :: r =>
      if e = 'e' ∨ e = 'E' then
        let es : Bool × List Char :=
          match r with
          | '+' :: r2 => (false, r2)
          | '-' :: r2 => (true, r2)
          | _ => (false, r)
        let eds := es.2.takeWhile Char.isDigit
        let r2 := es.2.dropWhile Char.isDigit
        if eds = [] then none
        else if r2 = [] then
          let ex : Int := (if es.1 then -1 else 1) * (digitsToNat eds : Int)
          some (mkFraction sgn.1 m.1 m.2.1 m.2.2 ex)
        else none
      else none

/-- Python `float(x)` on a decoded JSON value: numbers are returned, booleans
are numeric, numeric strings are parsed, everything else raises. -/
def pyFloat (j : Json) : Option (Int × Nat) :=
  match j with
  | .num n d => some (n, d)
  | .bool b => some (if b then (1, 1) else (0, 1))
  | .str s => pyParseFloat s
  | _ => none

/-- Truncation of the fraction `n / d` toward zero, the behaviour of Python
`int()` on a float. -/
def intTrunc (n : Int) (d : Nat) : Int :=
  if 0 ≤ n then (n.toNat / d : Nat)
  else -((-n).toNat / d : Nat)

/-- The tolerant numeric coercion `_to_int` of `_safe_parse_document_result`:
`int(float(x))`, with every exception mapped to `0`. -/
def _to_int (x : Json) : Int :=
  match pyFloat x with
  | some q => intTrunc q.1 q.2
  | none => 0

/-! ### The result data model

The record classes live in `app/models/legal.py` and are plain field
containers as constructed in `_safe_parse_document_result`; fields that the
service stores without coercion are kept as decoded `Json` values. -/

structure DocumentMeta where
  language : Json
  domain_tags : Json
  parties : Json
  governing_law : Json

structure DocumentSummary where
  title : Json
  overall_summary : Json
  one_line_summary : Json
  key_points : Json
  main_risks : Json
  main_protections : Json
  recommended_actions : Json

structure DocumentRiskProfile where
  overall_risk_level : String
  overall_risk_score : Int
  risk_dimensions : List (String × Int)
  comments : Json

structure ClauseTags where
  domain : Json
  risk : Json
  parties : Json

structure ClauseResult where
  clause_id : Json
  title : Json
  raw_text : Json
  summary : Json
  risk_level : Json
  risk_score : Int
  risk_factors : Json
  protections : Json
  red_flags : Json
  action_guides : Json
  key_points : Json
  tags : ClauseTags

structure ClauseCausality where
  from_clause_id : Json
  to_clause_id : Json
  relationship : Json
  description : Json

structure TermDefinition where
  term : Json
  korean : Json
  english : Json
  source : Json

structure DocumentResult where
  document_id : Json
  meta : DocumentMeta
  summary : DocumentSummary
  risk_profile : DocumentRiskProfile
  clauses : List ClauseResult
  causal_graph : List ClauseCausality
  terms : List TermDefinition

/-- The fixed risk-level vocabulary mapping. -/
def RISK_LEVEL_MAP : List (String × String) :=
  [("low", "낮음"), ("medium", "중간"), ("moderate", "중간"), ("high", "높음"),
   ("critical", "치명적"), ("severe", "치명적"),
   ("thấp", "낮음"), ("trung bình", "중간"), ("cao", "높음"), ("nghiêm trọng", "치명적")]

/-- `RISK_LEVEL_MAP.get(k, d)`. -/
def mapGetD (m : List (String × String)) (k d : String) : String :=
  match m.find? (fun p => p.1 = k) with
  | some p => p.2
  | none => d

/-- Field materialization (`_safe_parse_document_result`): populate a
`DocumentResult` from a decoded value with per-field defaults, following the
source line by line; `.get`/`.items()`/`.lower()` on an ill-typed receiver
raises, which the `Except` monad records. -/
def _safe_parse_document_result (data : Json) : Except String DocumentResult := do
  let meta_gotten ← pyGet data "meta" (.obj [])
  let meta_raw := pyOr meta_gotten (.obj [])
  let mlang ← pyGet meta_raw "language" (.str "ko")
  let mtags ← pyGet meta_raw "domain_tags" (.arr [])
  let mparties ← pyGet meta_raw "parties" (.arr [])
  let mgov ← pyGet meta_raw "governing_law" .null
  let meta : DocumentMeta := ⟨mlang, mtags, mparties, mgov⟩
  let summary_gotten ← pyGet data "summary" (.obj [])
  let summary_raw := pyOr summary_gotten (.obj [])
  let stitle ← pyGet summary_raw "title" .null
  let soverall ← pyGet summary_raw "overall_summary" (.str "")
  let sone ← pyGet summary_raw "one_line_summary" (.str "")
  let skey ← pyGet summary_raw "key_points" (.arr [])
  let srisks ← pyGet summary_raw "main_risks" (.arr [])
  let sprot ← pyGet summary_raw "main_protections" (.arr [])
  let srec ← pyGet summary_raw "recommended_actions" (.arr [])
  let summary : DocumentSummary :=
    ⟨stitle, soverall, sone, pyOr skey (.arr []), pyOr srisks (.arr []),
     pyOr sprot (.arr []), pyOr srec (.arr [])⟩
  let risk_gotten ← pyGet data "risk_profile" (.obj [])
  let risk_raw := pyOr risk_gotten (.obj [])
  let level_gotten ← pyGet risk_raw "overall_risk_level" (.str "중간")
  let raw_level ← pyLower (pyOr level_gotten (.str ""))
  let mapped_level := mapGetD RISK_LEVEL_MAP raw_level raw_level
  let dims_gotten ← pyGet risk_raw "risk_dimensions" (.obj [])
  let dims_raw := pyOr dims_gotten (.obj [])
  let ditems ← pyItems dims_raw
  let fixed_dims := ditems.map (fun p => (p.1, _to_int p.2))
  let rscore ← pyGet risk_raw "overall_risk_score" (.num 50 1)
  let rcomments ← pyGet risk_raw "comments" (.str "")
  let risk_profile : DocumentRiskProfile :=
    ⟨mapped_level, _to_int rscore, fixed_dims, rcomments⟩
  let clauses_gotten ← pyGet data "clauses" (.arr [])
  let clause_list ← pyIter (pyOr clauses_gotten (.arr []))
  let clauses_out ← clause_list.mapM (fun c => do
    let tags_gotten ← pyGet c "tags" (.obj [])
    let tags_raw := pyOr tags_gotten (.obj [])
    let cid ← pyGet c "clause_id" (.str "unknown")
    let ctitle ← pyGet c "title" .null
    let craw ← pyGet c "raw_text" (.str "")
    let csum ← pyGet c "summary" (.str "")
    let clevel ← pyGet c "risk_level" (.str "중간")
    let cscore ← pyGet c "risk_score" (.num 50 1)
    let crf ← pyGet c "risk_factors" (.arr [])
    let cprot ← pyGet c "protections" (.arr [])
    let credf ← pyGet c "red_flags" (.arr [])
    let cact ← pyGet c "action_guides" (.arr [])
    let ckey ← pyGet c "key_points" (.arr [])
    let tdom ← pyGet tags_raw "domain" (.arr [])
    let trisk ← pyGet tags_raw "risk" (.arr [])
    let tparties ← pyGet tags_raw "parties" (.arr [])
    pure (ClauseResult.mk cid ctitle craw csum clevel (_to_int cscore)
      (pyOr crf (.arr [])) (pyOr cprot (.arr [])) (pyOr credf (.arr []))
      (pyOr cact (.arr [])) (pyOr ckey (.arr []))
      ⟨pyOr tdom (.arr []), pyOr trisk (.arr []), pyOr tparties (.arr [])⟩))
  let causal_gotten ← pyGet data "causal_graph" (.arr [])
  let causal_list ← pyIter (pyOr causal_gotten (.arr []))
  let causal_out ← causal_list.mapM (fun rel => do
    let cfrom ← pyGet rel "from_clause_id" (.str "")
    let cto ← pyGet rel "to_clause_id" (.str "")
    let crel ← pyGet rel "relationship" (.str "depends_on")
    let cdesc ← pyGet rel "description" (.str "")
    pure (ClauseCausality.mk cfrom cto crel cdesc))
  let terms_gotten ← pyGet data "terms" (.arr [])
  let terms_list ← pyIter (pyOr terms_gotten (.arr []))
  let terms_out ← terms_list.mapM (fun t => do
    let tterm ← pyGet t "term" (.str "")
    let tkor ← pyGet t "korean" (.str "")
    let teng ← pyGet t "english" .null
    let tsrc ← pyGet t "source" (.str "MOLEG/LLM")
    pure (TermDefinition.mk tterm tkor teng tsrc))
  let did ← pyGet data "document_id" (.str "auto_generated")
  pure (DocumentResult.mk did meta summary risk_profile clauses_out causal_out terms_out)

/-! ### Delimiter stripping (model of `_strip_to_json`) -/

def backquote : Char := Char.ofNat 96

/-- `_strip_to_json`: drop a leading code fence (with optional `json` tag),
a trailing fence, and everything before the first opening brace. -/
def _strip_to_json (text : List Char) : List Char :=
  if text = [] then []
  else
    let t0 := pystrip text
    let t1 :=
      if t0.take 3 = [backquote, backquote, backquote] then
        let ta := (t0.dropWhile (fun c => c = backquote)).dropWhile isPySpace
        if asciiLowerL (ta.take 4) = ['j', 's', 'o', 'n'] then
          (ta.drop 4).dropWhile isPySpace
        else ta
      else t0
    let t2 := if t1.reverse.take 3 = [backquote, backquote, backquote] then
        t1.take (t1.length - 3)
      else t1
    let t3 :=
      match t2.findIdx? (fun c => c = '{') with
      | some i => t2.drop i
      | none => t2
    pystrip t3

/-! ### JSON repair (model of `_repair_json`) -/

/-- Index of the last occurrence of a character, Python `str.rfind`. -/
def rfindChar (ch : Char) : List Char → Option Nat
  | [] => none
  | c :: t =>
    match rfindChar ch t with
    | some i => some (i + 1)
    | none => if c = ch then some 0 else none

/-- Non-overlapping left-to-right replacement of a three-character pattern
by a single character, Python `str.replace` at the patterns the repair loop
uses. -/
def repl3 (p1 p2 p3 rep : Char) : List Char → List Char
  | c1 :: c2 :: c3 :: t =>
    if c1 = p1 ∧ c2 = p2 ∧ c3 = p3 then rep :: repl3 p1 p2 p3 rep t
    else c1 :: repl3 p1 p2 p3 rep (c2 :: c3 :: t)
  | s => s

/-- The three trailing-comma rewrites of one pass of the repair loop:
`", }" -> "}"`, then `", ]" -> "]"`, then `",\n}" -> "}"`. -/
def replace3 (s : List Char) : List Char :=
  repl3 ',' '\n' '}' '}'
    (repl3 ',' ' ' ']' ']'
      (repl3 ',' ' ' '}' '}' s))

/-- The `for _ in range(3)` comma-stripping loop: `inl r` means a pass
produced a string `r` that parses (which the source returns), `inr u` means
the loop fell through with current string `u`. -/
def commaLoop : Nat → List Char → (List Char) ⊕ (List Char)
  | 0, s => .inr s
  | n + 1, s =>
    let replaced := replace3 s
    if replaced = s then .inr s
    else if jsonParses replaced then .inl replaced
    else commaLoop n replaced

/-- The brace-balancing final stage: append the deficit of closing braces;
on failure return the original, unrepaired argument of `_repair_json`. -/
def braceStage (json_text s : List Char) : List Char :=
  let opens := s.count '{'
  let closes := s.count '}'
  if closes < opens then
    let s2 := s ++ List.replicate (opens - closes) '}'
    if jsonParses s2 then s2 else json_text
  else json_text

/-- The truncation-to-last-brace candidate of the repair stage (the string
`s` after the `rfind`-guarded truncation). -/
def truncCandidate (s0 : List Char) : List Char :=
  match rfindChar '}' s0 with
  | some last => s0.take (last + 1)
  | none => s0

/-- `_repair_json`: strip, accept if already valid, truncate to the last
closing brace, strip trailing commas for up to three passes, balance braces,
and otherwise return the input unchanged.  (When `rfind` fails the candidate
equals the stripped string, whose parse already failed, so the guarded
adoption test is expressed uniformly on the candidate.) -/
def _repair_json (json_text : List Char) : List Char :=
  if json_text = [] then json_text
  else
    let s0 := pystrip json_text
    if jsonParses s0 then s0
    else
      let c := truncCandidate s0
      if jsonParses c then c
      else
        match commaLoop 3 c with
        | .inl r => r
        | .inr u => braceStage json_text u

/-! ### The reconciler (model of `analyze_contract` after the LLM call) -/

/-- The pre-analysis hints consumed by the fallback path (the fields of
`NLPInfo` that `analyze_contract` reads). -/
structure NLPInfo where
  language : String
  domain_tags : List String
  parties : List String

/-- The fallback payload built when both decode attempts fail. -/
def fallbackData (nlp_info : NLPInfo) : Json :=
  Json.obj [
    ("document_id", .str "fallback"),
    ("meta", .obj [
      ("language", .str nlp_info.language),
      ("domain_tags", .arr (nlp_info.domain_tags.map Json.str)),
      ("parties", .arr (nlp_info.parties.map Json.str))]),
    ("summary", .obj [
      ("title", .str "AI 분석 오류"),
      ("overall_summary", .str "LLM 응답 파싱 실패."),
      ("one_line_summary", .str "파싱 오류"),
      ("key_points", .arr []),
      ("main_risks", .arr []),
      ("main_protections", .arr []),
      ("recommended_actions", .arr [])]),
    ("risk_profile", .obj [
      ("overall_risk_level", .str "중간"),
      ("overall_risk_score", .num 50 1),
      ("risk_dimensions", .obj []),
      ("comments", .str "LLM 응답 파싱 오류.")]),
    ("clauses", .arr []),
    ("causal_graph", .arr []),
    ("terms", .arr [])]

/-- The two decode attempts of `analyze_contract`: a straight `json.loads`,
then a second chance on the prefix up to the last closing brace.  A decoded
top-level `null` leaves the Python variable `data` equal to `None` and is
therefore indistinguishable from a failure. -/
def decodeStep (json_text : List Char) : Option Json :=
  let first : Option Json :=
    match json_loads json_text with
    | some .null => none
    | r => r
  match first with
  | some d => some d
  | none =>
    match rfindChar '}' json_text with
    | none => none
    | some last =>
      match json_loads (json_text.take (last + 1)) with
      | some .null => none
      | r => r

/-- The reconciler portion of `analyze_contract`: everything after the raw
LLM text is in hand (the cache probe and the network call are external
collaborators and are not modelled). -/
def analyze_contract (raw_text : List Char) (nlp_info : NLPInfo) :
    Except String DocumentResult :=
  let json_text := _repair_json (_strip_to_json raw_text)
  match decodeStep json_text with
  | some data => _safe_parse_document_result data
  | none => _safe_parse_document_result (fallbackData nlp_info)

/-! ### Projections used to state the claims -/

def docRiskLevel (e : Except String DocumentResult) : Option String :=
  match e with
  | .ok r => some r.risk_profile.overall_risk_level
  | .error _ => none

def docRiskScore (e : Except String DocumentResult) : Option Int :=
  match e with
  | .ok r => some r.risk_profile.overall_risk_score
  | .error _ => none

def clauseLevels (e : Except String DocumentResult) : Option (List Json) :=
  match e with
  | .ok r => some (r.clauses.map (fun c => c.risk_level))
  | .error _ => none

def metaDomainTags (e : Except String DocumentResult) : Option Json :=
  match e with
  | .ok r => some r.meta.domain_tags
  | .error _ => none

def metaParties (e : Except String DocumentResult) : Option Json :=
  match e with
  | .ok r => some r.meta.parties
  | .error _ => none

/-- Claim C1 (code_bug evidence): an input whose repaired form is valid JSON
but not an object — here the array `[1, 2]` — reaches field materialization,
where `data.get("meta", ...)` raises `AttributeError`; the pipeline therefore
does raise instead of returning a fully-formed result. -/
theorem C1_nonobject_json_raises :
    json_loads ("[1, 2]".data) = some (Json.arr [Json.num 1 1, Json.num 2 1])
    ∧ analyze_contract ("[1, 2]".data) ⟨"ko", [], []⟩ = .error "AttributeError" := by
  constructor
  · rfl
  · rfl

/-- Claim C2 (counterexample): for the non-numeric string value `"high"` in
`overall_risk_score`, the stored value is `0`, not `50` as claimed. -/
theorem C2_coercion_failure_stores_zero :
    docRiskScore (_safe_parse_document_result (Json.obj [("risk_profile",
      Json.obj [("overall_risk_score", Json.str "high")])])) = some 0
    ∧ (0 : Int) ≠ 50 := by
  exact ⟨rfl, by decide⟩

/-- Claim C2 (amended): the coercion accepts integers, floats and numeric
strings (truncating toward zero); on any value `float()` cannot convert it
yields `0`, and the default `50` applies only when the key is missing. -/
theorem C2_numeric_coercion :
    (∀ j : Json, pyFloat j = none → _to_int j = 0)
    ∧ (∀ (n : Int) (d : Nat), _to_int (Json.num n d) = intTrunc n d)
    ∧ _to_int (Json.num 7 1) = 7
    ∧ _to_int (Json.num 39 10) = 3
    ∧ _to_int (Json.str "42") = 42
    ∧ _to_int (Json.str " 3.9 ") = 3
    ∧ _to_int (Json.str "-2.5e1") = -25
    ∧ _to_int (Json.str "high") = 0
    ∧ _to_int Json.null = 0
    ∧ _to_int (Json.obj []) = 0
    ∧ docRiskScore (_safe_parse_document_result (Json.obj [("risk_profile",
        Json.obj [("overall_risk_score", Json.str "high")])])) = some 0
    ∧ docRiskScore (_safe_parse_document_result (Json.obj [])) = some 50 := by
  refine ⟨?_, ?_, by decide, by decide, by decide, by decide, by decide, rfl, rfl, rfl,
    by decide, by decide⟩
  · intro j h
    simp only [_to_int, h]
  · intro n d
    rfl

/-- Claim C2 witness: the failure branch of the coercion at the concrete
value `"high"`. -/
theorem C2_numeric_coercion_witness :
    pyFloat (Json.str "high") = none ∧ _to_int (Json.str "high") = 0 :=
  ⟨rfl, C2_numeric_coercion.1 (Json.str "high") rfl⟩

/-- Claim C3 (counterexample): a clause whose `risk_level` is the mapped
vocabulary word `"high"` is stored verbatim, not as the canonical `"높음"`:
the vocabulary mapping is not applied at clause level. -/
theorem C3_clause_level_not_mapped :
    clauseLevels (_safe_parse_document_result (Json.obj [("clauses",
      Json.arr [Json.obj [("risk_level", Json.str "high")]])])) = some [Json.str "high"]
    ∧ Json.str "high" ≠ Json.str "높음" := by
  refine ⟨rfl, fun h => ?_⟩
  injection h with h1
  exact absurd h1 (by decide)

/-- Claim C3 (amended): the vocabulary mapping is applied only to the
document-level risk level; every clause-level `risk_level` is stored exactly
as decoded. -/
theorem C3_level_map_document_only :
    (∀ v : Json, clauseLevels (_safe_parse_document_result (Json.obj [("clauses",
        Json.arr [Json.obj [("risk_level", v)]])])) = some [v])
    ∧ docRiskLevel (_safe_parse_document_result (Json.obj [("risk_profile",
        Json.obj [("overall_risk_level", Json.str "high")])])) = some "높음" := by
  exact ⟨fun v => rfl, rfl⟩

/-- Claim C7: the document-level risk level `"high"` is canonicalized to
`"높음"`, and the unrecognized `"urgent"` passes through unchanged. -/
theorem C7_document_level_canonicalization :
    docRiskLevel (_safe_parse_document_result (Json.obj [("risk_profile",
      Json.obj [("overall_risk_level", Json.str "high")])])) = some "높음"
    ∧ docRiskLevel (_safe_parse_document_result (Json.obj [("risk_profile",
      Json.obj [("overall_risk_level", Json.str "urgent")])])) = some "urgent" :=
  ⟨rfl, rfl⟩

/-- Claim C9 (counterexample): an explicit `null` `overall_risk_level` does
not default to `"중간"`; the `or ""` fallback feeds the empty string through
`.lower()` and the empty string is stored. -/
theorem C9_null_level_yields_empty :
    docRiskLevel (_safe_parse_document_result (Json.obj [("risk_profile",
      Json.obj [("overall_risk_level", Json.null)])])) = some ""
    ∧ "" ≠ "중간" :=
  ⟨rfl, by decide⟩

/-- Claim C9 (amended): the document-level label is lowercased before the
vocabulary lookup (`"High"` and `"CRITICAL"` canonicalize, the unmapped
`"URGENT"` is stored in lowercase), a missing label defaults to `"중간"`,
and an explicit `null` yields the empty string. -/
theorem C9_lowercased_vocabulary :
    docRiskLevel (_safe_parse_document_result (Json.obj [("risk_profile",
      Json.obj [("overall_risk_level", Json.str "High")])])) = some "높음"
    ∧ docRiskLevel (_safe_parse_document_result (Json.obj [("risk_profile",
      Json.obj [("overall_risk_level", Json.str "CRITICAL")])])) = some "치명적"
    ∧ docRiskLevel (_safe_parse_document_result (Json.obj [("risk_profile",
      Json.obj [("overall_risk_level", Json.str "URGENT")])])) = some "urgent"
    ∧ docRiskLevel (_safe_parse_document_result (Json.obj [])) = some "중간"
    ∧ docRiskLevel (_safe_parse_document_result (Json.obj [("risk_profile",
      Json.obj [("overall_risk_level", Json.null)])])) = some "" :=
  ⟨rfl, rfl, rfl, rfl, rfl⟩

/-- Claim C10 (counterexample): a `null` value under `meta.domain_tags` is
not treated like a missing key — the field lacks the `or []` guard and the
null is stored instead of an empty list. -/
theorem C10_meta_null_tags_pass_through :
    metaDomainTags (_safe_parse_document_result (Json.obj [("meta",
      Json.obj [("domain_tags", Json.null)])])) = some Json.null
    ∧ Json.null ≠ Json.arr [] :=
  ⟨rfl, fun h => Json.noConfusion h⟩

/-- Claim C10 (amended): an explicit `null` is equivalent to a missing key
for every container-valued field guarded by `or {}` / `or []` — the
top-level `meta`/`summary`/`risk_profile`/`clauses`/`causal_graph`/`terms`,
`risk_dimensions`, the summary lists, the clause lists and the clause
`tags` — but `meta.domain_tags` and `meta.parties` store the null verbatim. -/
theorem C10_null_like_missing_except_meta_lists :
    _safe_parse_document_result (Json.obj [("meta", Json.null), ("summary", Json.null),
      ("risk_profile", Json.null), ("clauses", Json.null), ("causal_graph", Json.null),
      ("terms", Json.null)])
      = _safe_parse_document_result (Json.obj [])
    ∧ _safe_parse_document_result (Json.obj [
        ("summary", Json.obj [("key_points", Json.null), ("main_risks", Json.null),
          ("main_protections", Json.null), ("recommended_actions", Json.null)]),
        ("risk_profile", Json.obj [("risk_dimensions", Json.null)]),
        ("clauses", Json.arr [Json.obj [("tags", Json.null), ("risk_factors", Json.null),
          ("protections", Json.null), ("red_flags", Json.null),
          ("action_guides", Json.null), ("key_points", Json.null)]])])
      = _safe_parse_document_result (Json.obj [("summary", Json.obj []),
          ("risk_profile", Json.obj []), ("clauses", Json.arr [Json.obj []])])
    ∧ metaDomainTags (_safe_parse_document_result (Json.obj [("meta",
        Json.obj [("domain_tags", Json.null), ("parties", Json.null)])])) = some Json.null
    ∧ metaParties (_safe_parse_document_result (Json.obj [("meta",
        Json.obj [("domain_tags", Json.null), ("parties", Json.null)])])) = some Json.null :=
  ⟨rfl, rfl, rfl, rfl⟩

/-- Splitting a successful `Except` bind into its two successful halves. -/
theorem exceptBind_ok {α β : Type} {ma : Except String α} {f : α → Except String β}
    {b : β} (h : (ma >>= f) = .ok b) : ∃ a, ma = .ok a ∧ f a = .ok b := by
  cases ma with
  | ok a => exact ⟨a, rfl, h⟩
  | error e => exact absurd h (by simp [Bind.bind, Except.bind])

/-- Claim C4: whenever both decode attempts fail on the stripped and repaired
text, the reconciler returns (never raises) the fallback result: sentinel
document id, metadata from the pre-analysis hints, the parse-failure summary,
the neutral risk profile at score 50, and empty clause/causal/term lists. -/
theorem C4_fallback_result (raw_text : List Char) (nlp_info : NLPInfo)
    (h : decodeStep (_repair_json (_strip_to_json raw_text)) = none) :
    analyze_contract raw_text nlp_info = .ok
      (DocumentResult.mk (.str "fallback")
        ⟨.str nlp_info.language, .arr (nlp_info.domain_tags.map Json.str),
         .arr (nlp_info.parties.map Json.str), .null⟩
        ⟨.str "AI 분석 오류", .str "LLM 응답 파싱 실패.", .str "파싱 오류",
         .arr [], .arr [], .arr [], .arr []⟩
        ⟨"중간", 50, [], .str "LLM 응답 파싱 오류."⟩
        [] [] []) := by
  simp only [analyze_contract]
  rw [h]
  rfl

/-- Claim C4 witness: the literal string `"not json"` defeats every repair
stage and both decode attempts, and the reconciler produces the fallback
record populated from the hints. -/
theorem C4_fallback_result_witness :
    decodeStep (_repair_json (_strip_to_json ("not json".data))) = none
    ∧ analyze_contract ("not json".data) ⟨"ko", ["용역"], ["갑", "을"]⟩ = .ok
      (DocumentResult.mk (.str "fallback")
        ⟨.str "ko", .arr [.str "용역"], .arr [.str "갑", .str "을"], .null⟩
        ⟨.str "AI 분석 오류", .str "LLM 응답 파싱 실패.", .str "파싱 오류",
         .arr [], .arr [], .arr [], .arr []⟩
        ⟨"중간", 50, [], .str "LLM 응답 파싱 오류."⟩
        [] [] []) :=
  ⟨rfl, C4_fallback_result ("not json".data) ⟨"ko", ["용역"], ["갑", "을"]⟩ rfl⟩

/-- The fully-defaulted result produced from `{"summary": {}}`. -/
def summaryOnlyResult : DocumentResult :=
  DocumentResult.mk (.str "auto_generated")
    ⟨.str "ko", .arr [], .arr [], .null⟩
    ⟨.null, .str "", .str "", .arr [], .arr [], .arr [], .arr []⟩
    ⟨"중간", 50, [], .str ""⟩ [] [] []

/-- Claim C6: on any decoded object whose `clauses`/`causal_graph`/`terms`
keys are missing, a successful materialization stores empty lists for them;
and decoding `{"summary": {}}` yields the fully-defaulted record, with every
list field empty and the numeric score 50. -/
theorem C6_missing_keys_default_empty :
    (∀ (kvs : List (String × Json)) (r : DocumentResult),
      kvs.find? (fun p => p.1 = "clauses") = none →
      kvs.find? (fun p => p.1 = "causal_graph") = none →
      kvs.find? (fun p => p.1 = "terms") = none →
      _safe_parse_document_result (Json.obj kvs) = .ok r →
      r.clauses = [] ∧ r.causal_graph = [] ∧ r.terms = [])
    ∧ _safe_parse_document_result (Json.obj [("summary", Json.obj [])])
      = .ok summaryOnlyResult := by
  constructor
  · intro kvs r h1 h2 h3 h4
    simp only [_safe_parse_document_result] at h4
    obtain ⟨a1, -, h4⟩ := exceptBind_ok h4
    obtain ⟨a2, -, h4⟩ := exceptBind_ok h4
    obtain ⟨a3, -, h4⟩ := exceptBind_ok h4
    obtain ⟨a4, -, h4⟩ := exceptBind_ok h4
    obtain ⟨a5, -, h4⟩ := exceptBind_ok h4
    obtain ⟨a6, -, h4⟩ := exceptBind_ok h4
    obtain ⟨a7, -, h4⟩ := exceptBind_ok h4
    obtain ⟨a8, -, h4⟩ := exceptBind_ok h4
    obtain ⟨a9, -, h4⟩ := exceptBind_ok h4
    obtain ⟨a10, -, h4⟩ := exceptBind_ok h4
    obtain ⟨a11, -, h4⟩ := exceptBind_ok h4
    obtain ⟨a12, -, h4⟩ := exceptBind_ok h4
    obtain ⟨a13, -, h4⟩ := exceptBind_ok h4
    obtain ⟨a14, -, h4⟩ := exceptBind_ok h4
    obtain ⟨a15, -, h4⟩ := exceptBind_ok h4
    obtain ⟨a16, -, h4⟩ := exceptBind_ok h4
    obtain ⟨a17, -, h4⟩ := exceptBind_ok h4
    obtain ⟨a18, -, h4⟩ := exceptBind_ok h4
    obtain ⟨a19, -, h4⟩ := exceptBind_ok h4
    obtain ⟨a20, -, h4⟩ := exceptBind_ok h4
    obtain ⟨cg, hcg, h4⟩ := exceptBind_ok h4
    obtain ⟨cl, hcl, h4⟩ := exceptBind_ok h4
    obtain ⟨co, hco, h4⟩ := exceptBind_ok h4
    obtain ⟨gg, hgg, h4⟩ := exceptBind_ok h4
    obtain ⟨gl, hgl, h4⟩ := exceptBind_ok h4
    obtain ⟨go, hgo, h4⟩ := exceptBind_ok h4
    obtain ⟨tg, htg, h4⟩ := exceptBind_ok h4
    obtain ⟨tl, htl, h4⟩ := exceptBind_ok h4
    obtain ⟨to2, hto, h4⟩ := exceptBind_ok h4
    obtain ⟨a30, -, h4⟩ := exceptBind_ok h4
    simp only [pyGet, dictGetD, h1] at hcg
    simp only [pyGet, dictGetD, h2] at hgg
    simp only [pyGet, dictGetD, h3] at htg
    cases hcg
    cases hgg
    cases htg
    simp only [pyOr, truthy, List.isEmpty_nil, Bool.not_true, Bool.false_eq_true,
      if_false, pyIter] at hcl hgl htl
    cases hcl
    cases hgl
    cases htl
    simp only [List.mapM_nil] at hco hgo hto
    cases hco
    cases hgo
    cases hto
    simp only [pure, Except.pure] at h4
    cases h4
    exact ⟨rfl, rfl, rfl⟩
  · rfl

/-- Claim C6 witness: the concrete object `{"summary": {}}` satisfies the
missing-key hypotheses and the materialized record has every list empty. -/
theorem C6_missing_keys_default_empty_witness :
    _safe_parse_document_result (Json.obj [("summary", Json.obj [])])
      = .ok summaryOnlyResult
    ∧ (summaryOnlyResult.clauses = [] ∧ summaryOnlyResult.causal_graph = []
        ∧ summaryOnlyResult.terms = []) :=
  ⟨C6_missing_keys_default_empty.2,
   C6_missing_keys_default_empty.1 [("summary", Json.obj [])] summaryOnlyResult
     rfl rfl rfl C6_missing_keys_default_empty.2⟩

/-! ### Edge-character lemmas for the repair-idempotence argument -/

/-- The first character is not strippable whitespace. -/
def headOk (l : List Char) : Prop :=
  ∀ c, l.head? = some c → isPySpace c = false

/-- The last character is not strippable whitespace. -/
def lastOk (l : List Char) : Prop :=
  ∀ c, l.getLast? = some c → isPySpace c = false

theorem headOk_nil : headOk [] := by
  intro c hc
  cases hc

theorem lastOk_nil : lastOk [] := by
  intro c hc
  cases hc

theorem getLast?_cons_ne_nil {a : Char} {t : List Char} (h : t ≠ []) :
    (a :: t).getLast? = t.getLast? := by
  cases t with
  | nil => exact absurd rfl h
  | cons b u => simp [List.getLast?_cons_cons]


theorem head_dropWhile_false (p : Char → Bool) (l : List Char) :
    ∀ c, (l.dropWhile p).head? = some c → p c = false := by
  induction l with
  | nil => intro c hc; cases hc
  | cons a t ih =>
    intro c hc
    cases hpa : p a with
    | true =>
      rw [List.dropWhile_cons_of_pos hpa] at hc
      exact ih c hc
    | false =>
      rw [List.dropWhile_cons_of_neg (by simp [hpa])] at hc
      simp only [List.head?_cons, Option.some.injEq] at hc
      subst hc
      exact hpa

theorem prefix_head? {l1 l2 : List Char} (h : l1 <+: l2) (hne : l1 ≠ []) :
    l2.head? = l1.head? := by
  obtain ⟨t, rfl⟩ := h
  exact List.head?_append_of_ne_nil l1 hne

theorem pystrip_headOk (l : List Char) : headOk (pystrip l) := by
  intro c hc
  by_cases hn : pystrip l = []
  · rw [hn] at hc
    cases hc
  · have hpre : pystrip l <+: l.dropWhile isPySpace := List.rdropWhile_prefix _ _
    have := prefix_head? hpre hn
    rw [← this] at hc
    exact head_dropWhile_false isPySpace l c hc

theorem pystrip_lastOk (l : List Char) : lastOk (pystrip l) := by
  intro c hc
  by_cases hn : pystrip l = []
  · rw [hn] at hc
    cases hc
  · have hlast := List.rdropWhile_last_not isPySpace (l.dropWhile isPySpace) hn
    rw [List.getLast?_eq_getLast _ hn] at hc
    simp only [Option.some.injEq] at hc
    subst hc
    simpa using hlast

theorem pystrip_eq_self {l : List Char} (h1 : headOk l) (h2 : lastOk l) :
    pystrip l = l := by
  have hd : l.dropWhile isPySpace = l := by
    cases l with
    | nil => rfl
    | cons a t =>
      have ha : isPySpace a = false := h1 a rfl
      rw [List.dropWhile_cons_of_neg (by simp [ha])]
  rw [pystrip, hd]
  refine List.rdropWhile_eq_self_iff.mpr (fun hl => ?_)
  have := h2 (l.getLast hl) (List.getLast?_eq_getLast l hl)
  simp [this]

theorem pystrip_stable (l : List Char) : pystrip (pystrip l) = pystrip l :=
  pystrip_eq_self (pystrip_headOk l) (pystrip_lastOk l)

theorem repl3_ne_nil (p1 p2 p3 rep : Char) (s : List Char) (hs : s ≠ []) :
    repl3 p1 p2 p3 rep s ≠ [] := by
  induction s using repl3.induct p1 p2 p3 rep with
  | case1 c1 c2 c3 t hcond ih =>
    rw [repl3, if_pos hcond]
    exact List.cons_ne_nil _ _
  | case2 c1 c2 c3 t hcond ih =>
    rw [repl3, if_neg hcond]
    exact List.cons_ne_nil _ _
  | case3 s hshape =>
    rw [repl3.eq_def]
    split
    · exact absurd rfl (hshape _ _ _ _)
    · exact hs

theorem repl3_headOk (p1 p2 p3 rep : Char) (hrep : isPySpace rep = false)
    (s : List Char) : headOk s → headOk (repl3 p1 p2 p3 rep s) := by
  induction s using repl3.induct p1 p2 p3 rep with
  | case1 c1 c2 c3 t hcond ih =>
    intro _ c hc
    rw [repl3, if_pos hcond] at hc
    simp only [List.head?_cons, Option.some.injEq] at hc
    subst hc
    exact hrep
  | case2 c1 c2 c3 t hcond ih =>
    intro h c hc
    rw [repl3, if_neg hcond] at hc
    simp only [List.head?_cons, Option.some.injEq] at hc
    subst hc
    exact h c1 rfl
  | case3 s hshape =>
    intro h
    rw [repl3.eq_def]
    split
    · exact absurd rfl (hshape _ _ _ _)
    · exact h

theorem repl3_lastOk (p1 p2 p3 rep : Char) (hrep : isPySpace rep = false)
    (s : List Char) : lastOk s → lastOk (repl3 p1 p2 p3 rep s) := by
  induction s using repl3.induct p1 p2 p3 rep with
  | case1 c1 c2 c3 t hcond ih =>
    intro h
    rw [repl3, if_pos hcond]
    by_cases ht : repl3 p1 p2 p3 rep t = []
    · rw [ht]
      intro c hc
      simp only [List.getLast?_singleton, Option.some.injEq] at hc
      subst hc
      exact hrep
    · intro c hc
      rw [getLast?_cons_ne_nil ht] at hc
      have htne : t ≠ [] := fun h0 => ht (by rw [h0]; rfl)
      have hlt : lastOk t := by
        intro c' hc'
        apply h
        rw [getLast?_cons_ne_nil (by simp), getLast?_cons_ne_nil (by simp),
          getLast?_cons_ne_nil htne]
        exact hc'
      exact ih hlt c hc
  | case2 c1 c2 c3 t hcond ih =>
    intro h c hc
    rw [repl3, if_neg hcond] at hc
    have hne : repl3 p1 p2 p3 rep (c2 :: c3 :: t) ≠ [] :=
      repl3_ne_nil p1 p2 p3 rep _ (by simp)
    rw [getLast?_cons_ne_nil hne] at hc
    have hl : lastOk (c2 :: c3 :: t) := by
      intro c' hc'
      apply h
      rw [getLast?_cons_ne_nil (by simp)]
      exact hc'
    exact ih hl c hc
  | case3 s hshape =>
    intro h c hc
    rw [repl3.eq_def] at hc
    split at hc
    · exact absurd rfl (hshape _ _ _ _)
    · exact h c hc

theorem replace3_headOk (s : List Char) (h : headOk s) : headOk (replace3 s) := by
  unfold replace3
  exact repl3_headOk ',' '\n' '}' '}' rfl _ (repl3_headOk ',' ' ' ']' ']' rfl _
    (repl3_headOk ',' ' ' '}' '}' rfl _ h))

theorem replace3_lastOk (s : List Char) (h : lastOk s) : lastOk (replace3 s) := by
  unfold replace3
  exact repl3_lastOk ',' '\n' '}' '}' rfl _ (repl3_lastOk ',' ' ' ']' ']' rfl _
    (repl3_lastOk ',' ' ' '}' '}' rfl _ h))

theorem commaLoop_inl_parses (n : Nat) (t r : List Char)
    (h : commaLoop n t = .inl r) : jsonParses r = true := by
  induction n generalizing t with
  | zero => exact Sum.noConfusion h
  | succ n ih =>
    simp only [commaLoop] at h
    split at h
    · exact Sum.noConfusion h
    · split at h
      · cases h
        assumption
      · exact ih _ h

theorem commaLoop_inl_edges (n : Nat) (t r : List Char)
    (h : commaLoop n t = .inl r) (h1 : headOk t) (h2 : lastOk t) :
    headOk r ∧ lastOk r := by
  induction n generalizing t with
  | zero => exact Sum.noConfusion h
  | succ n ih =>
    simp only [commaLoop] at h
    split at h
    · exact Sum.noConfusion h
    · split at h
      · cases h
        exact ⟨replace3_headOk t h1, replace3_lastOk t h2⟩
      · exact ih _ h (replace3_headOk t h1) (replace3_lastOk t h2)

theorem commaLoop_inr_edges (n : Nat) (t u : List Char)
    (h : commaLoop n t = .inr u) (h1 : headOk t) (h2 : lastOk t) :
    headOk u ∧ lastOk u := by
  induction n generalizing t with
  | zero =>
    cases h
    exact ⟨h1, h2⟩
  | succ n ih =>
    simp only [commaLoop] at h
    split at h
    · cases h
      exact ⟨h1, h2⟩
    · split at h
      · exact Sum.noConfusion h
      · exact ih _ h (replace3_headOk t h1) (replace3_lastOk t h2)

theorem getLast?_replicate_succ (n : Nat) (a : Char) :
    (List.replicate (n + 1) a).getLast? = some a := by
  induction n with
  | zero => rfl
  | succ n ih =>
    rw [List.replicate_succ, getLast?_cons_ne_nil (by simp)]
    exact ih

/-- Either the brace-balancing stage gives back the original argument of
`_repair_json`, or its output parses and has non-whitespace edges. -/
theorem braceStage_edges (j u : List Char) (h1 : headOk u) (h2 : lastOk u) :
    braceStage j u = j ∨ (jsonParses (braceStage j u) = true
      ∧ headOk (braceStage j u) ∧ lastOk (braceStage j u)) := by
  simp only [braceStage]
  split
  · next hlt =>
    split
    · next hp =>
      right
      refine ⟨hp, ?_, ?_⟩
      · intro c hc
        cases u with
        | nil => simp at hlt
        | cons a t =>
          rw [List.head?_append_of_ne_nil _ (by simp)] at hc
          exact h1 c hc
      · intro c hc
        have hk : u.count '{' - u.count '}' ≠ 0 := Nat.sub_ne_zero_of_lt hlt
        obtain ⟨m, hm⟩ := Nat.exists_eq_succ_of_ne_zero hk
        rw [hm, List.getLast?_append_of_ne_nil _ (by simp), getLast?_replicate_succ] at hc
        cases hc
        rfl
    · next => left; rfl
  · next => left; rfl

theorem rfindChar_lt (ch : Char) (s : List Char) (i : Nat)
    (h : rfindChar ch s = some i) : i < s.length := by
  induction s generalizing i with
  | nil => exact Option.noConfusion h
  | cons a t ih =>
    simp only [rfindChar] at h
    cases hr : rfindChar ch t with
    | some j =>
      simp only [hr, Option.some.injEq] at h
      subst h
      have := ih j hr
      simp only [List.length_cons]
      omega
    | none =>
      simp only [hr] at h
      by_cases hac : a = ch
      · simp only [if_pos hac, Option.some.injEq] at h
        subst h
        simp
      · simp only [if_neg hac] at h
        exact Option.noConfusion h

theorem rfindChar_take_getLast (ch : Char) (s : List Char) (i : Nat)
    (h : rfindChar ch s = some i) : (s.take (i + 1)).getLast? = some ch := by
  induction s generalizing i with
  | nil => exact Option.noConfusion h
  | cons a t ih =>
    simp only [rfindChar] at h
    cases hr : rfindChar ch t with
    | some j =>
      simp only [hr, Option.some.injEq] at h
      subst h
      rw [List.take_succ_cons, getLast?_cons_ne_nil ?hne]
      case hne =>
        have hj := rfindChar_lt ch t j hr
        intro h0
        have hlen : (t.take (j + 1)).length = 0 := by rw [h0]; rfl
        rw [List.length_take] at hlen
        omega
      exact ih j hr
    | none =>
      simp only [hr] at h
      by_cases hac : a = ch
      · simp only [if_pos hac, Option.some.injEq] at h
        subst h
        simp [hac]
      · simp only [if_neg hac] at h
        exact Option.noConfusion h

theorem head?_take_succ (s : List Char) (n : Nat) :
    (s.take (n + 1)).head? = s.head? := by
  cases s <;> rfl

theorem truncCandidate_edges (s0 : List Char) (h1 : headOk s0) (h2 : lastOk s0) :
    headOk (truncCandidate s0) ∧ lastOk (truncCandidate s0) := by
  cases hr : rfindChar '}' s0 with
  | none =>
    simp only [truncCandidate, hr]
    exact ⟨h1, h2⟩
  | some i =>
    simp only [truncCandidate, hr]
    constructor
    · intro c hc
      rw [head?_take_succ] at hc
      exact h1 c hc
    · intro c hc
      rw [rfindChar_take_getLast '}' s0 i hr] at hc
      cases hc
      rfl

theorem jsonParses_nil : jsonParses ([] : List Char) = false := rfl

theorem parses_ne_nil {r : List Char} (h : jsonParses r = true) : r ≠ [] := by
  intro h0
  subst h0
  simp [jsonParses_nil] at h

theorem repair_strip_parses {s : List Char} (hs : s ≠ [])
    (hp : jsonParses (pystrip s) = true) : _repair_json s = pystrip s := by
  simp [_repair_json, hs, hp]

theorem repair_trunc_parses {s : List Char} (hs : s ≠ [])
    (h1 : jsonParses (pystrip s) = false)
    (h2 : jsonParses (truncCandidate (pystrip s)) = true) :
    _repair_json s = truncCandidate (pystrip s) := by
  simp [_repair_json, hs, h1, h2]

theorem repair_comma {s r : List Char} (hs : s ≠ [])
    (h1 : jsonParses (pystrip s) = false)
    (h2 : jsonParses (truncCandidate (pystrip s)) = false)
    (h3 : commaLoop 3 (truncCandidate (pystrip s)) = .inl r) :
    _repair_json s = r := by
  simp [_repair_json, hs, h1, h2, h3]

theorem repair_brace {s u : List Char} (hs : s ≠ [])
    (h1 : jsonParses (pystrip s) = false)
    (h2 : jsonParses (truncCandidate (pystrip s)) = false)
    (h3 : commaLoop 3 (truncCandidate (pystrip s)) = .inr u) :
    _repair_json s = braceStage s u := by
  simp [_repair_json, hs, h1, h2, h3]

/-- Every run of `_repair_json` either adopts a string that parses (and has
already-stripped edges) or gives back its argument unchanged. -/
theorem repair_parses_or_id (s : List Char) :
    (jsonParses (_repair_json s) = true ∧ headOk (_repair_json s)
      ∧ lastOk (_repair_json s))
    ∨ _repair_json s = s := by
  by_cases hs : s = []
  · right
    rw [hs]
    rfl
  by_cases h1 : jsonParses (pystrip s) = true
  · left
    rw [repair_strip_parses hs h1]
    exact ⟨h1, pystrip_headOk s, pystrip_lastOk s⟩
  have h1f : jsonParses (pystrip s) = false := by
    revert h1
    cases jsonParses (pystrip s) <;> simp
  have he := truncCandidate_edges (pystrip s) (pystrip_headOk s) (pystrip_lastOk s)
  by_cases h2 : jsonParses (truncCandidate (pystrip s)) = true
  · left
    rw [repair_trunc_parses hs h1f h2]
    exact ⟨h2, he.1, he.2⟩
  have h2f : jsonParses (truncCandidate (pystrip s)) = false := by
    revert h2
    cases jsonParses (truncCandidate (pystrip s)) <;> simp
  cases h3 : commaLoop 3 (truncCandidate (pystrip s)) with
  | inl r =>
    left
    rw [repair_comma hs h1f h2f h3]
    have hedges := commaLoop_inl_edges 3 _ r h3 he.1 he.2
    exact ⟨commaLoop_inl_parses 3 _ r h3, hedges.1, hedges.2⟩
  | inr u =>
    rw [repair_brace hs h1f h2f h3]
    have hu := commaLoop_inr_edges 3 _ u h3 he.1 he.2
    rcases braceStage_edges s u hu.1 hu.2 with hb | hb
    · right
      exact hb
    · left
      exact hb

/-- Claim C5: `_repair_json` attempts its heuristics in the fixed order —
accept the stripped string if it parses; else adopt the truncation to the
last closing brace if that parses; else adopt the first of up to three
trailing-comma-stripping passes that parses; else append the brace deficit
and adopt if that parses; else return the original input unchanged — and the
returned string always either parses or is the untouched input. -/
theorem C5_repair_stage_order (s : List Char) :
    (s = [] → _repair_json s = s)
    ∧ (s ≠ [] → jsonParses (pystrip s) = true → _repair_json s = pystrip s)
    ∧ (s ≠ [] → jsonParses (pystrip s) = false →
        ∀ last, rfindChar '}' (pystrip s) = some last →
        jsonParses ((pystrip s).take (last + 1)) = true →
        _repair_json s = (pystrip s).take (last + 1))
    ∧ (∀ r, s ≠ [] → jsonParses (pystrip s) = false →
        jsonParses (truncCandidate (pystrip s)) = false →
        commaLoop 3 (truncCandidate (pystrip s)) = .inl r →
        _repair_json s = r ∧ jsonParses r = true)
    ∧ (∀ u, s ≠ [] → jsonParses (pystrip s) = false →
        jsonParses (truncCandidate (pystrip s)) = false →
        commaLoop 3 (truncCandidate (pystrip s)) = .inr u →
        u.count '}' < u.count '{' →
        jsonParses (u ++ List.replicate (u.count '{' - u.count '}') '}') = true →
        _repair_json s = u ++ List.replicate (u.count '{' - u.count '}') '}')
    ∧ (∀ u, s ≠ [] → jsonParses (pystrip s) = false →
        jsonParses (truncCandidate (pystrip s)) = false →
        commaLoop 3 (truncCandidate (pystrip s)) = .inr u →
        (¬ u.count '}' < u.count '{' ∨
          jsonParses (u ++ List.replicate (u.count '{' - u.count '}') '}') = false) →
        _repair_json s = s)
    ∧ (jsonParses (_repair_json s) = true ∨ _repair_json s = s) := by
  refine ⟨?_, ?_, ?_, ?_, ?_, ?_, ?_⟩
  · intro h
    rw [h]
    rfl
  · exact fun hs hp => repair_strip_parses hs hp
  · intro hs h1 last hrf hp
    have ht : truncCandidate (pystrip s) = (pystrip s).take (last + 1) := by
      simp [truncCandidate, hrf]
    rw [← ht]
    exact repair_trunc_parses hs h1 (by rw [ht]; exact hp)
  · intro r hs h1 h2 h3
    exact ⟨repair_comma hs h1 h2 h3, commaLoop_inl_parses 3 _ r h3⟩
  · intro u hs h1 h2 h3 hlt hp
    rw [repair_brace hs h1 h2 h3]
    simp [braceStage, hlt, hp]
  · intro u hs h1 h2 h3 hbad
    rw [repair_brace hs h1 h2 h3]
    rcases hbad with hb | hb
    · simp [braceStage, hb]
    · simp only [braceStage]
      split
      · rw [if_neg (by simp [hb])]
      · rfl
  · rcases repair_parses_or_id s with h | h
    · exact Or.inl h.1
    · exact Or.inr h

/-- Claim C5 witness: on `{"a": 1} xx` the stripped string fails to parse,
the truncation to the last closing brace (index 7) parses, and the repair
adopts exactly that truncation. -/
theorem C5_repair_stage_order_witness :
    _repair_json ("\x7b\"a\": 1\x7d xx".data) = ("\x7b\"a\": 1\x7d".data)
    ∧ jsonParses (pystrip ("\x7b\"a\": 1\x7d xx".data)) = false :=
  ⟨(C5_repair_stage_order ("\x7b\"a\": 1\x7d xx".data)).2.2.1 (by decide) rfl 7 rfl rfl,
   rfl⟩

/-- Claim C8 (counterexample): `" {}"` is valid JSON, yet `_repair_json`
returns its stripped form `"{}"`, not the input unchanged. -/
theorem C8_valid_json_is_stripped :
    jsonParses (" \x7b\x7d".data) = true
    ∧ _repair_json (" \x7b\x7d".data) = ("\x7b\x7d".data)
    ∧ " \x7b\x7d".data ≠ "\x7b\x7d".data :=
  ⟨rfl, rfl, by decide⟩

/-- Claim C8 (amended): `_repair_json` is idempotent, and an input that
parses as JSON and carries no surrounding whitespace (so that stripping is
the identity on it) is returned unchanged. -/
theorem C8_repair_idempotent (s : List Char) :
    _repair_json (_repair_json s) = _repair_json s
    ∧ (jsonParses s = true → pystrip s = s → _repair_json s = s) := by
  constructor
  · rcases repair_parses_or_id s with ⟨hp, hh, hl⟩ | hid
    · have hne : _repair_json s ≠ [] := parses_ne_nil hp
      have hstrip : pystrip (_repair_json s) = _repair_json s := pystrip_eq_self hh hl
      rw [repair_strip_parses hne (by rw [hstrip]; exact hp), hstrip]
    · rw [hid]
      exact hid
  · intro hp hstrip
    rw [repair_strip_parses (parses_ne_nil hp) (by rw [hstrip]; exact hp), hstrip]

/-- Claim C8 witness: idempotence and the parse-then-unchanged property at
the already-valid object `{"a": 1}`. -/
theorem C8_repair_idempotent_witness :
    _repair_json (_repair_json ("\x7b\"a\": 1\x7d".data))
      = _repair_json ("\x7b\"a\": 1\x7d".data)
    ∧ _repair_json ("\x7b\"a\": 1\x7d".data) = "\x7b\"a\": 1\x7d".data :=
  ⟨(C8_repair_idempotent ("\x7b\"a\": 1\x7d".data)).1,
   (C8_repair_idempotent ("\x7b\"a\": 1\x7d".data)).2 rfl rfl⟩
